import Mathlib

/-! Verification development for the payatom_bot worker supervisor.

Shallow embedding of the Python sources under payatom_bot/: the balance
monitor (balance_monitor.py), the shared retry wrapper (worker_base.py),
the per-bank statement workers (workers/iob.py, idbi.py, idfc.py,
canara.py, kgb.py, tmb.py), the /stop command handler
(handlers/sessions.py) and the OTP/CAPTCHA broadcast handler
(handlers/captcha.py).

Modelling conventions: machine doubles are modelled as exact rationals;
Python dictionaries keyed by alias are modelled as association lists or,
where every dictionary operation acts alias-wise, per alias; wall-clock
times are integer second counts; regular expressions are unfolded into
explicit character scans (ASCII reading of \\d and \\w and of the
whitespace class, which covers every input the handlers receive). -/

namespace AutobotV2

/-! ## Balance parsing (balance_monitor.py, parse_balance_amount) -/

/-- Python exception kinds relevant to `parse_balance_amount`
(balance_monitor.py lines 86-120).  `otherError` stands for any
exception kind the `except (ValueError, AttributeError)` clause would
not catch. -/
inductive PyExc where
  | valueError
  | attributeError
  | otherError
  deriving DecidableEq

/-- The whitespace class `\s` as it occurs in the character classes of
`parse_balance_amount` (ASCII reading). -/
def isPySpace (c : Char) : Bool :=
  c = ' ' || c = '\t' || c = '\n' || c = '\r' || c = '\x0b' || c = '\x0c'

/-- Membership in the character class of
`re.sub(r'[₹$€£INR\s,]', '', cleaned)` (balance_monitor.py line 108).
Note the class strips the individual letters I, N, R anywhere in the
string, not the word INR. -/
def isStrippedChar (c : Char) : Bool :=
  c = '₹' || c = '$' || c = '€' || c = '£' || c = 'I' || c = 'N' || c = 'R'
    || isPySpace c || c = ','

/-- Drop trailing `\s*` characters. -/
def dropTrailingSpaces (cs : List Char) : List Char :=
  ((cs.reverse).dropWhile isPySpace).reverse

/-- Case-insensitive suffix test against an uppercase pattern. -/
def endsWithCI (cs pat : List Char) : Bool :=
  (cs.reverse.take pat.length).map Char.toUpper = pat.reverse

/-- Remove the last `pat.length` characters. -/
def chopSuffix (cs pat : List Char) : List Char :=
  (cs.reverse.drop pat.length).reverse

/-- The second substitution of `parse_balance_amount`
(balance_monitor.py line 111):
`re.sub(r'\s*(CR|DR|CREDIT|DEBIT)\s*$', '', cleaned, flags=re.IGNORECASE)`.
The anchored pattern removes one trailing alternative together with the
whitespace around it; when no alternative ends the string the input is
returned unchanged. -/
def stripTrailingCrDr (cs : List Char) : List Char :=
  let t := dropTrailingSpaces cs
  if endsWithCI t ['C', 'R', 'E', 'D', 'I', 'T'] then
    dropTrailingSpaces (chopSuffix t ['C', 'R', 'E', 'D', 'I', 'T'])
  else if endsWithCI t ['D', 'E', 'B', 'I', 'T'] then
    dropTrailingSpaces (chopSuffix t ['D', 'E', 'B', 'I', 'T'])
  else if endsWithCI t ['C', 'R'] then
    dropTrailingSpaces (chopSuffix t ['C', 'R'])
  else if endsWithCI t ['D', 'R'] then
    dropTrailingSpaces (chopSuffix t ['D', 'R'])
  else cs

/-- Characters of the token class `[\d.]` (balance_monitor.py line 114,
ASCII digits). -/
def isNumTokenChar (c : Char) : Bool :=
  c.isDigit || c = '.'

/-- `re.search(r'[\d.]+', cleaned)`: the first maximal run of digits and
dots. -/
def firstNumToken : List Char → Option (List Char)
  | [] => none
  | c :: rest =>
    if isNumTokenChar c then some (c :: rest.takeWhile isNumTokenChar)
    else firstNumToken rest

/-- Numeric value of a digit string read in base 10. -/
def digitsToNat (ds : List Char) : ℕ :=
  ds.foldl (fun a c => 10 * a + (c.toNat - 48)) 0

/-- Python `float(token)` restricted to tokens drawn from `[\d.]+`: the
conversion succeeds iff the token has at most one dot and at least one
digit (`float(".")` raises `ValueError`); the value is modelled exactly
in ℚ where the source holds a double. -/
def pyFloatOfToken (t : List Char) : Option ℚ :=
  if t.count '.' ≤ 1 ∧ t.any Char.isDigit then
    let ip := t.takeWhile (fun c => c ≠ '.')
    let fp := (t.dropWhile (fun c => c ≠ '.')).drop 1
    some (mkRat (digitsToNat ip * 10 ^ fp.length + digitsToNat fp) (10 ^ fp.length))
  else none

/-- The `cleaned` local of `parse_balance_amount` after both
substitutions: `balance_str.upper()` with the currency class stripped
and a trailing CR/DR marker removed. -/
def cleanedBalance (s : String) : List Char :=
  stripTrailingCrDr ((s.data.map Char.toUpper).filter (fun c => !isStrippedChar c))

/-- The `float(match.group())` call of `parse_balance_amount` line 116:
a failed conversion raises `ValueError`. -/
def floatOrRaise (t : List Char) : Except PyExc (Option ℚ) :=
  match pyFloatOfToken t with
  | some q => Except.ok (some q)
  | none => Except.error PyExc.valueError

/-- Body of the `try:` block of `parse_balance_amount`
(balance_monitor.py lines 105-118); a `.error` value is a raised
exception. -/
def parseBalanceBody (s : String) : Except PyExc (Option ℚ) :=
  match firstNumToken (cleanedBalance s) with
  | some tok => floatOrRaise tok
  | none => Except.ok none

/-- `parse_balance_amount` with its exception behaviour explicit: the
`if not balance_str` guard runs before the `try`, and the
`except (ValueError, AttributeError)` clause turns exactly those two
exception kinds into `None`; any other kind would propagate. -/
def parseBalanceAmountExc (s : String) : Except PyExc (Option ℚ) :=
  if s = "" then Except.ok none
  else
    match parseBalanceBody s with
    | Except.ok v => Except.ok v
    | Except.error PyExc.valueError => Except.ok none
    | Except.error PyExc.attributeError => Except.ok none
    | Except.error e => Except.error e

/-- `parse_balance_amount` as its callers observe it. -/
def parseBalanceAmount (s : String) : Option ℚ :=
  match parseBalanceAmountExc s with
  | Except.ok v => v
  | Except.error _ => none

/-! ## Threshold ladder and monitor tick (balance_monitor.py) -/

/-- The five threshold amounts of `THRESHOLDS` (balance_monitor.py lines
41-83) in source (ascending) order.  The urgency labels, emojis and
action texts of `BalanceThreshold` feed only the alert text, which is
not modelled. -/
def thresholdAmounts : List ℕ := [50000, 60000, 70000, 90000, 100000]

/-- The scan of `_check_all_balances` (lines 406-411):
`for threshold in reversed(THRESHOLDS): if balance >= threshold.amount: break`. -/
def highestCrossed (b : ℚ) : Option ℕ :=
  thresholdAmounts.reverse.find? (fun a => decide ((a : ℚ) ≤ b))

/-- `alert_repeat_interval = 300` seconds (balance_monitor.py line 309). -/
def alertRepeatInterval : ℤ := 300

/-- Per-alias slice of the monitor dictionaries `triggered_thresholds`
and `last_alert_time`; `none` means the alias is absent from the
dictionary. -/
structure AliasAlerts where
  triggered : Option (Finset ℕ)
  lastAlert : Option ℤ
  deriving DecidableEq

/-- Result of one alias's slice of a monitor tick: the updated
dictionary slice, the threshold amount alerted on (if any), and how many
per-group sends failed (those failures are logged, never raised). -/
structure TickResult where
  state : AliasAlerts
  emitted : Option ℕ
  groupSendFailures : ℕ
  deriving DecidableEq

/-- One alias's slice of `BalanceMonitor._check_all_balances`
(balance_monitor.py lines 387-463).  `sendOk` lists, per configured
alert group, whether `bot.send_message` succeeds inside `_send_alert`
(lines 506-528); each failure there is caught and logged, so
`_send_alert` always returns normally and the tracking update at lines
457-461 runs whenever an alert was due. -/
def checkAliasTick (st : AliasAlerts) (now : ℤ) (alive : Bool)
    (lastBalance : Option String) (sendOk : List Bool) : TickResult :=
  if !alive then ⟨st, none, 0⟩
  else
    match lastBalance with
    | none => ⟨st, none, 0⟩
    | some s =>
      if s = "" then ⟨st, none, 0⟩
      else
        match parseBalanceAmount s with
        | none => ⟨st, none, 0⟩
        | some b =>
          match highestCrossed b with
          | none => ⟨⟨none, none⟩, none, 0⟩
          | some amt =>
            -- should_send_alert: first crossing, or repeat interval elapsed
            if (match st.lastAlert with
                | none => true
                | some t => decide (alertRepeatInterval ≤ now - t)) then
              ⟨⟨some (insert amt (st.triggered.getD ∅)), some now⟩, some amt,
                (sendOk.filter (fun ok => !ok)).length⟩
            else ⟨st, none, 0⟩

/-! ## Alert reset paths (balance_monitor.py, handlers/sessions.py) -/

/-- The two monitor dictionaries as association lists (keys are unique
alias strings). -/
structure MonitorMaps where
  triggered : List (String × Finset ℕ)
  lastAlert : List (String × ℤ)
  deriving DecidableEq

/-- `BalanceMonitor.reset_alerts_for_alias` (balance_monitor.py lines
530-540): deletes the alias from both dictionaries. -/
def resetAlertsForAlias (m : MonitorMaps) (a : String) : MonitorMaps :=
  ⟨m.triggered.filter (fun p => !(p.1 == a)),
    m.lastAlert.filter (fun p => !(p.1 == a))⟩

/-- The `/reset_alerts all` branch (handlers/sessions.py lines 703-713):
only `balance_monitor.triggered_thresholds.clear()` is executed;
`last_alert_time` is left untouched. -/
def resetAlertsAllCmd (m : MonitorMaps) : MonitorMaps :=
  ⟨[], m.lastAlert⟩

/-- The `/reset_alerts <alias>` branch (handlers/sessions.py lines
715-730): `reset_alerts_for_alias` runs only when the alias is a key of
`triggered_thresholds`. -/
def resetAlertsAliasCmd (m : MonitorMaps) (a : String) : MonitorMaps :=
  if (m.triggered.find? (fun p => p.1 == a)).isSome then
    resetAlertsForAlias m a
  else m

/-! ## Date windows (workers/iob.py, kgb.py, idbi.py, idfc.py, canara.py) -/

/-- A statement date window; days are local dates as day numbers. -/
structure DateWindow where
  fromDay : ℤ
  toDay : ℤ
  deriving DecidableEq

/-- IOB (workers/iob.py lines 406-408):
`from_dt = now - timedelta(days=1) if now.hour < 6 else now; to_dt = now`. -/
def iobDateWindow (day : ℤ) (hour : ℕ) : DateWindow :=
  if hour < 6 then ⟨day - 1, day⟩ else ⟨day, day⟩

/-- KGB without a custom range (workers/kgb.py lines 246-249):
`dt_from = now - timedelta(days=1) if now.hour < 6 else now`. -/
def kgbDateWindow (day : ℤ) (hour : ℕ) : DateWindow :=
  if hour < 6 then ⟨day - 1, day⟩ else ⟨day, day⟩

/-- KGB with the supervisor-set override (workers/kgb.py lines 244-245):
when `from_dt`/`to_dt` are set they bypass the cutover rule. -/
def kgbDateWindowMaybeCustom (custom : Option (ℤ × ℤ)) (day : ℤ) (hour : ℕ) :
    DateWindow :=
  match custom with
  | some (f, t) => ⟨f, t⟩
  | none => kgbDateWindow day hour

/-- IDBI (workers/idbi.py lines 240-243):
`fr_dt = now - timedelta(days=1) if now.hour < 5 else now`. -/
def idbiDateWindow (day : ℤ) (hour : ℕ) : DateWindow :=
  if hour < 5 then ⟨day - 1, day⟩ else ⟨day, day⟩

/-- IDFC (workers/idfc.py lines 193-199). -/
def idfcDateWindow (day : ℤ) (hour : ℕ) : DateWindow :=
  if hour < 5 then ⟨day - 1, day⟩ else ⟨day, day⟩

/-- Canara (workers/canara.py lines 403-409). -/
def canaraDateWindow (day : ℤ) (hour : ℕ) : DateWindow :=
  if hour < 5 then ⟨day - 1, day⟩ else ⟨day, day⟩

/-! ## The shared retry wrapper (worker_base.py, BaseWorker._run_with_retries) -/

/-- How one call of `_run_with_retries` ends: `func` returned, the loop
condition ended the loop without a pending exception (stop signal seen,
possibly after a retried failure), or the last failure was re-raised. -/
inductive RetryOutcome (ε : Type) where
  | success
  | noAttempt
  | raised (e : ε)
  deriving DecidableEq

/-- Observable trace of one `_run_with_retries` call: number of `func`
invocations, the ERROR events (each carrying the `label` context and the
exception), the screenshot sets taken, the 5 s retry sleeps, and the
final outcome. -/
structure RetryTrace (ε : Type) where
  calls : ℕ
  errors : List (String × ε)
  screenshots : ℕ
  sleeps : ℕ
  result : RetryOutcome ε
  deriving DecidableEq

/-- `BaseWorker._run_with_retries` (worker_base.py lines 111-149) as a
trace-producing interpreter.  `outcome k` is the behaviour of the k-th
invocation of `func` (`none` = returns, `some e` = raises `e`);
`stopB k` is the `stop_evt.is_set()` test in the `while` condition
before attempt k; `stopA k` is the test inside the `except` block after
attempt k fails.  `fuel` is `max_retries - attempt`, so the
`attempt >= max_retries` re-raise test of line 145 is `fuel = 1` at
entry to the loop body. -/
def runWithRetriesGo {ε : Type} (label : String) (outcome : ℕ → Option ε)
    (stopB stopA : ℕ → Bool) : ℕ → ℕ → RetryTrace ε
  | _, 0 => ⟨0, [], 0, 0, RetryOutcome.noAttempt⟩
  | attempt, fuel' + 1 =>
    if stopB attempt then ⟨0, [], 0, 0, RetryOutcome.noAttempt⟩
    else
      match outcome attempt with
      | none => ⟨1, [], 0, 0, RetryOutcome.success⟩
      | some e =>
        if fuel' = 0 || stopA attempt then
          ⟨1, [(label, e)], 1, 0, RetryOutcome.raised e⟩
        else
          let rest := runWithRetriesGo label outcome stopB stopA (attempt + 1) fuel'
          ⟨rest.calls + 1, (label, e) :: rest.errors, rest.screenshots + 1,
            rest.sleeps + 1, rest.result⟩

/-- `_run_with_retries` entered at attempt 0 with a retry budget of
`maxRetries` (default 3). -/
def runWithRetries {ε : Type} (label : String) (outcome : ℕ → Option ε)
    (stopB stopA : ℕ → Bool) (maxRetries : ℕ) : RetryTrace ε :=
  runWithRetriesGo label outcome stopB stopA 0 maxRetries

/-! ## AutoBank upload loops (workers/idbi.py, idfc.py, canara.py, kgb.py,
iob.py, tmb.py) -/

/-- Observable trace of one upload block: `AutoBankClient.upload` calls
made, per-failure ERROR events, 2 s sleeps between attempts, and whether
the block re-raised the last failure. -/
structure UploadTrace where
  attempts : ℕ
  errorEvents : ℕ
  sleeps2s : ℕ
  raised : Bool
  deriving DecidableEq

/-- The shared five-attempt upload loop of IDBI (idbi.py lines 319-339),
IDFC (idfc.py lines 230-250), Canara (canara.py lines 442-468) and KGB
(kgb.py lines 353-373): `for attempt in range(1, 6)`, on failure an
ERROR event and a screenshot set, re-raise when `attempt == 5`, else
`time.sleep(2)` and retry.  `uploadOk k` tells whether attempt k
succeeds; `fuel` is `6 - attempt`, so `attempt == max_attempts` is
`fuel = 1` at entry. -/
def uploadRetryLoopGo (uploadOk : ℕ → Bool) : ℕ → ℕ → UploadTrace
  | _, 0 => ⟨0, 0, 0, false⟩
  | attempt, fuel' + 1 =>
    if uploadOk attempt then ⟨1, 0, 0, false⟩
    else if fuel' = 0 then ⟨1, 1, 0, true⟩
    else
      let rest := uploadRetryLoopGo uploadOk (attempt + 1) fuel'
      ⟨rest.attempts + 1, rest.errorEvents + 1, rest.sleeps2s + 1, rest.raised⟩

/-- The shared upload loop entered at attempt 1 with `max_attempts = 5`. -/
def uploadRetryLoop (uploadOk : ℕ → Bool) : UploadTrace :=
  uploadRetryLoopGo uploadOk 1 5

/-- The IOB upload loop (iob.py lines 462-473): five attempts through
`ErrorContext` with `reraise=(attempt == max_attempts)`, which logs and
suppresses the first four failures; there is no sleep between
attempts. -/
def iobUploadLoopGo (uploadOk : ℕ → Bool) : ℕ → ℕ → UploadTrace
  | _, 0 => ⟨0, 0, 0, false⟩
  | attempt, fuel' + 1 =>
    if uploadOk attempt then ⟨1, 0, 0, false⟩
    else if fuel' = 0 then ⟨1, 1, 0, true⟩
    else
      let rest := iobUploadLoopGo uploadOk (attempt + 1) fuel'
      ⟨rest.attempts + 1, rest.errorEvents + 1, rest.sleeps2s, rest.raised⟩

/-- The IOB upload loop entered at attempt 1 with `max_attempts = 5`. -/
def iobUploadLoop (uploadOk : ℕ → Bool) : UploadTrace :=
  iobUploadLoopGo uploadOk 1 5

/-- TMB (tmb.py lines 139-149): a single `AutoBankClient.upload` call in
`_balance_and_download`; a failure propagates (through the `finally`
that closes the tab) to `_run_with_retries` in `TMBWorker.run`. -/
def tmbUploadOnce (uploadOk : Bool) : UploadTrace :=
  if uploadOk then ⟨1, 0, 0, false⟩ else ⟨1, 0, 0, true⟩

/-! ## The IOB outer loop (workers/iob.py, IOBWorker.run) -/

/-- Messenger event kinds (messaging.py line 176). -/
inductive EventKind where
  | info
  | error
  | start
  | stop
  | captcha
  | otp
  | uploadOk
  deriving DecidableEq

/-- Exit of the IOB steady-state inner loop within one outer iteration:
the stop signal ended it after `fetchOk` successful statement cycles, or
an exception was raised after `fetchOk` successes. -/
inductive SteadyExit (ε : Type) where
  | stopSignal (fetchOk : ℕ)
  | failed (fetchOk : ℕ) (e : ε)
  deriving DecidableEq

/-- Behaviour of one outer-loop iteration of `IOBWorker.run`: the outer
`while` saw the stop signal, `_login` raised, or login succeeded and the
steady loop ran. -/
inductive OuterOutcome (ε : Type) where
  | stopBeforeLogin
  | loginFailed (e : ε)
  | steady (x : SteadyExit ε)
  deriving DecidableEq

/-- Observable trace of an `IOBWorker.run` execution prefix:
`itersRun` outer iterations consumed, `steadyCounters` records, per
iteration whose login succeeded, the `retry_count` value in force during
the steady loop together with its successful statement-cycle count,
`halted` whether `run` returned within the given fuel, and
`haltEvent` the kind of the `Too many failures ... Stopping` event when
that path ended the run (`none` for a stop-signal exit). -/
structure IOBRunTrace where
  itersRun : ℕ
  steadyCounters : List (ℕ × ℕ)
  halted : Bool
  haltEvent : Option EventKind
  deriving DecidableEq

/-- `IOBWorker.run` (iob.py lines 177-255) as an interpreter over outer
iterations.  On a successful `_login` the source sets `retry_count = 0`
(line 188) before entering the steady loop; both exception handlers
increment `retry_count`, emit the `Too many failures` event through
`self.error` (kind ERROR) and `return` when `retry_count > 5`, and
otherwise cycle tabs and run the next outer iteration.  IDBI
(idbi.py lines 62-87) and IDFC (idfc.py lines 67-90) follow the same
shape. -/
def iobRunGo {ε : Type} (iters : ℕ → OuterOutcome ε) : ℕ → ℕ → ℕ → IOBRunTrace
  | _, _, 0 => ⟨0, [], false, none⟩
  | retryCount, idx, fuel + 1 =>
    match iters idx with
    | OuterOutcome.stopBeforeLogin => ⟨0, [], true, none⟩
    | OuterOutcome.loginFailed _ =>
      let rc := retryCount + 1
      if 5 < rc then ⟨1, [], true, some EventKind.error⟩
      else
        let rest := iobRunGo iters rc (idx + 1) fuel
        ⟨rest.itersRun + 1, rest.steadyCounters, rest.halted, rest.haltEvent⟩
    | OuterOutcome.steady (SteadyExit.stopSignal k) => ⟨1, [(0, k)], true, none⟩
    | OuterOutcome.steady (SteadyExit.failed k _) =>
      let rc := 0 + 1
      if 5 < rc then ⟨1, [(0, k)], true, some EventKind.error⟩
      else
        let rest := iobRunGo iters rc (idx + 1) fuel
        ⟨rest.itersRun + 1, (0, k) :: rest.steadyCounters, rest.halted, rest.haltEvent⟩

/-- `IOBWorker.run` entered with `retry_count = 0` at the first outer
iteration. -/
def iobRun {ε : Type} (iters : ℕ → OuterOutcome ε) (fuel : ℕ) : IOBRunTrace :=
  iobRunGo iters 0 0 fuel

/-! ## The /stop command (handlers/sessions.py, worker_base.py) -/

/-- Registry view of one worker thread: whether `is_alive()` holds and
whether its `stop_evt` has been set. -/
structure WorkerHandle where
  alive : Bool
  stopFired : Bool
  deriving DecidableEq

/-- Reply produced for one alias by `/stop`. -/
inductive StopReply where
  | notRunning
  | stoppedOk
  | stoppedWithError
  deriving DecidableEq

/-- Outcome of one alias's handling inside `stop_cmd`. -/
structure StopResult where
  registry : List (String × WorkerHandle)
  reply : StopReply
  firedStop : Bool
  joined : Bool
  deriving DecidableEq

/-- One alias's handling inside `stop_cmd` (handlers/sessions.py lines
344-365).  When the alias is absent, or its worker is not alive, the
loop replies `is not running` and leaves the registry untouched.  When
the worker is alive: `w.stop()` (worker_base.py lines 100-106, which
sets `stop_evt` before quitting the driver and swallows driver errors),
`w.join(timeout=5.0)`, and `workers.pop(alias, None)`; `raises` models
an exception out of stop/join, after which the `except` branch still
pops the entry. -/
def stopCmdOne (reg : List (String × WorkerHandle)) (a : String)
    (raises : Bool) : StopResult :=
  match reg.find? (fun p => p.1 == a) with
  | none => ⟨reg, StopReply.notRunning, false, false⟩
  | some (_, w) =>
    if !w.alive then ⟨reg, StopReply.notRunning, false, false⟩
    else
      let reg' := reg.filter (fun p => !(p.1 == a))
      if raises then ⟨reg', StopReply.stoppedWithError, true, true⟩
      else ⟨reg', StopReply.stoppedOk, true, true⟩

/-! ## The OTP/CAPTCHA broadcast handler (handlers/captcha.py) -/

/-- The word-character class `\w` (ASCII reading). -/
def isWordChar (c : Char) : Bool :=
  c.isAlphanum || c = '_'

/-- Leftmost match of `re.search(r"\b(\d{6})\b", text)`
(handlers/captcha.py line 17): scan for the first position holding six
digits with a non-word character (or an end of the string) on both
sides; `prev` is the character before the current position. -/
def findSixDigitAux (prev : Option Char) : List Char → Option (List Char)
  | [] => none
  | c :: rest =>
    let cand := (c :: rest).take 6
    let boundaryL := match prev with
      | none => true
      | some p => !isWordChar p
    let boundaryR := match (c :: rest).drop 6 with
      | [] => true
      | d :: _ => !isWordChar d
    if boundaryL && (cand.length == 6) && cand.all Char.isDigit && boundaryR then
      some cand
    else findSixDigitAux (some c) rest

/-- Python `str.strip()` (ASCII whitespace reading). -/
def pyStrip (cs : List Char) : List Char :=
  ((cs.dropWhile isPySpace).reverse.dropWhile isPySpace).reverse

/-- What `otp_or_captcha` decides to broadcast. -/
inductive BroadcastKind where
  | asOtp (code : String)
  | asCaptcha (code : String)
  | noBroadcast
  deriving DecidableEq

/-- The classification in `otp_or_captcha` (handlers/captcha.py lines
12-24): empty text is ignored; a standalone six-digit number is taken as
OTP; else the text with spaces removed is taken, uppercased, as CAPTCHA
when it is 4 to 8 ASCII alphanumerics; anything else is ignored. -/
def otpOrCaptchaDecision (text : String) : BroadcastKind :=
  let t := pyStrip text.data
  if t = [] then BroadcastKind.noBroadcast
  else
    match findSixDigitAux none t with
    | some code => BroadcastKind.asOtp ⟨code⟩
    | none =>
      let u := t.filter (fun c => !(c == ' '))
      if 4 ≤ u.length ∧ u.length ≤ 8 ∧ u.all Char.isAlphanum then
        BroadcastKind.asCaptcha ⟨u.map Char.toUpper⟩
      else BroadcastKind.noBroadcast

/-- Per-worker inbox slots: whether the worker object has the
`otp_code` / `captcha_code` attributes, and their current values. -/
structure WorkerInboxes where
  hasOtpSlot : Bool
  hasCaptchaSlot : Bool
  otpSlot : Option String
  captchaSlot : Option String
  deriving DecidableEq

/-- The per-worker assignment block (handlers/captcha.py lines 27-36):
for a six-digit code both `otp_code` and `captcha_code` are set when the
worker has those attributes (the second `if` is not an `elif`); for a
CAPTCHA code only `captcha_code` is set. -/
def applyBroadcast (k : BroadcastKind) (w : WorkerInboxes) : WorkerInboxes :=
  match k with
  | BroadcastKind.noBroadcast => w
  | BroadcastKind.asOtp code =>
    { w with
        otpSlot := if w.hasOtpSlot then some code else w.otpSlot,
        captchaSlot := if w.hasCaptchaSlot then some code else w.captchaSlot }
  | BroadcastKind.asCaptcha code =>
    { w with captchaSlot := if w.hasCaptchaSlot then some code else w.captchaSlot }

/-- Broadcast over the registry (`for alias, w in list(_registry(context).items())`). -/
def broadcastToRegistry (k : BroadcastKind)
    (reg : List (String × WorkerInboxes)) : List (String × WorkerInboxes) :=
  reg.map (fun p => (p.1, applyBroadcast k p.2))

/-- One poll of the Canara OTP wait loop (workers/canara.py lines
325-336): only while the worker is inside its wait (`waiting = true`)
is the slot read and consumed (`self.otp_code = None  # consume`); a
worker not waiting leaves its inbox untouched. -/
def otpPollStep (waiting : Bool) (w : WorkerInboxes) :
    WorkerInboxes × Option String :=
  if waiting then
    match w.otpSlot with
    | some code => ({ w with otpSlot := none }, some code)
    | none => (w, none)
  else (w, none)

/-! ## Theorems -/

/-! ### C10: totality of parse_balance_amount -/

/-- The try-block body can only raise `ValueError` (the kind `float`
raises on a malformed token); no other exception kind is produced. -/
theorem parseBalanceBody_ne_other (s : String) :
    parseBalanceBody s ≠ Except.error PyExc.otherError := by
  unfold parseBalanceBody floatOrRaise
  split
  · split <;> simp
  · simp

/-- Every call of `parse_balance_amount` returns normally. -/
theorem parseBalanceAmountExc_ok (s : String) :
    ∃ v : Option ℚ, parseBalanceAmountExc s = Except.ok v := by
  unfold parseBalanceAmountExc
  by_cases hs : s = ""
  · exact ⟨none, by simp [hs]⟩
  · rw [if_neg hs]
    rcases h : parseBalanceBody s with e | v
    · cases e with
      | valueError => exact ⟨none, rfl⟩
      | attributeError => exact ⟨none, rfl⟩
      | otherError => exact absurd h (parseBalanceBody_ne_other s)
    · exact ⟨v, rfl⟩

/-- C10: `parse_balance_amount` is total: for every input string it
returns without raising (the only exception its body can raise is the
`ValueError` out of `float`, which the handler catches), yielding either
`None` or a number; in particular the empty string, dot-only degenerate
tokens and digit-free strings yield `None`. -/
theorem C10_parse_total :
    (∀ s : String, ∃ v : Option ℚ, parseBalanceAmountExc s = Except.ok v)
      ∧ parseBalanceAmountExc "" = Except.ok none
      ∧ parseBalanceAmountExc "." = Except.ok none
      ∧ parseBalanceAmountExc "...." = Except.ok none
      ∧ parseBalanceAmountExc "₹12,345.67" = Except.ok (some (mkRat 1234567 100))
      ∧ parseBalanceAmount "no digits here" = none := by
  exact ⟨parseBalanceAmountExc_ok, rfl, rfl, rfl, rfl, by decide⟩

/-! ### C1: the monitor tick -/

/-- The reversed scan of the ladder returns the highest crossed
amount. -/
theorem highestCrossed_spec (b : ℚ) (amt : ℕ) (h : highestCrossed b = some amt) :
    amt ∈ thresholdAmounts ∧ (amt : ℚ) ≤ b ∧
      ∀ a ∈ thresholdAmounts, (a : ℚ) ≤ b → a ≤ amt := by
  have hrev : thresholdAmounts.reverse = [100000, 90000, 70000, 60000, 50000] := by decide
  unfold highestCrossed at h
  rw [hrev] at h
  by_cases h1 : ((100000 : ℕ) : ℚ) ≤ b
  · simp only [List.find?, decide_eq_true h1] at h
    cases h
    refine ⟨by decide, h1, ?_⟩
    intro a ha _
    fin_cases ha <;> decide
  · rw [List.find?_cons_of_neg _ (by simpa using h1)] at h
    by_cases h2 : ((90000 : ℕ) : ℚ) ≤ b
    · simp only [List.find?, decide_eq_true h2] at h
      cases h
      refine ⟨by decide, h2, ?_⟩
      intro a ha hab
      fin_cases ha <;> first
      | decide
      | exact absurd hab h1
    · rw [List.find?_cons_of_neg _ (by simpa using h2)] at h
      by_cases h3 : ((70000 : ℕ) : ℚ) ≤ b
      · simp only [List.find?, decide_eq_true h3] at h
        cases h
        refine ⟨by decide, h3, ?_⟩
        intro a ha hab
        fin_cases ha <;> first
        | decide
        | exact absurd hab h1
        | exact absurd hab h2
      · rw [List.find?_cons_of_neg _ (by simpa using h3)] at h
        by_cases h4 : ((60000 : ℕ) : ℚ) ≤ b
        · simp only [List.find?, decide_eq_true h4] at h
          cases h
          refine ⟨by decide, h4, ?_⟩
          intro a ha hab
          fin_cases ha <;> first
          | decide
          | exact absurd hab h1
          | exact absurd hab h2
          | exact absurd hab h3
        · rw [List.find?_cons_of_neg _ (by simpa using h4)] at h
          by_cases h5 : ((50000 : ℕ) : ℚ) ≤ b
          · simp only [List.find?, decide_eq_true h5] at h
            cases h
            refine ⟨by decide, h5, ?_⟩
            intro a ha hab
            fin_cases ha <;> first
            | decide
            | exact absurd hab h1
            | exact absurd hab h2
            | exact absurd hab h3
            | exact absurd hab h4
          · rw [List.find?_cons_of_neg _ (by simpa using h5)] at h
            simp at h

/-- A `none` scan result means no ladder amount is crossed. -/
theorem highestCrossed_none (b : ℚ) (h : highestCrossed b = none) :
    ∀ a ∈ thresholdAmounts, ¬ ((a : ℚ) ≤ b) := by
  intro a ha
  unfold highestCrossed at h
  rw [List.find?_eq_none] at h
  have := h a (List.mem_reverse.mpr ha)
  simpa using this

/-- C1: for a monitor tick on an alive worker whose `last_balance`
parses to `b`: the tick selects the highest ladder amount crossed; with
no amount crossed it clears the alias's alert state and emits nothing;
with highest amount `amt` it emits exactly one alert for `amt` precisely
when `lastAlert` is unset or at least `repeatInterval` (300 s) elapsed,
and then sets `lastAlert := now` and inserts `amt` into the triggered
set; otherwise it leaves the state unchanged and emits nothing. -/
theorem C1_monitor_tick (st : AliasAlerts) (now : ℤ) (s : String)
    (b : ℚ) (sendOk : List Bool) (hb : parseBalanceAmount s = some b) :
    (highestCrossed b = none →
        checkAliasTick st now true (some s) sendOk = ⟨⟨none, none⟩, none, 0⟩) ∧
    (∀ amt, highestCrossed b = some amt →
      (amt ∈ thresholdAmounts ∧ (amt : ℚ) ≤ b ∧
        ∀ a ∈ thresholdAmounts, (a : ℚ) ≤ b → a ≤ amt) ∧
      ((st.lastAlert = none ∨
          ∃ t, st.lastAlert = some t ∧ alertRepeatInterval ≤ now - t) →
        checkAliasTick st now true (some s) sendOk =
          ⟨⟨some (insert amt (st.triggered.getD ∅)), some now⟩, some amt,
            (sendOk.filter (fun ok => !ok)).length⟩) ∧
      ((∃ t, st.lastAlert = some t ∧ now - t < alertRepeatInterval) →
        checkAliasTick st now true (some s) sendOk = ⟨st, none, 0⟩)) := by
  have hs : ¬ s = "" := by
    intro hempty
    rw [hempty] at hb
    have hnone : parseBalanceAmount "" = none := rfl
    rw [hnone] at hb
    cases hb
  constructor
  · intro hnone
    simp [checkAliasTick, hb, hnone, hs]
  · intro amt hamt
    refine ⟨highestCrossed_spec b amt hamt, ?_, ?_⟩
    · intro hdue
      rcases hdue with hnone | ⟨t, ht, hrep⟩
      · simp [checkAliasTick, hb, hamt, hs, hnone]
      · have hdec : decide (alertRepeatInterval ≤ now - t) = true := decide_eq_true hrep
        simp [checkAliasTick, hb, hamt, hs, ht, hdec]
    · rintro ⟨t, ht, hlt⟩
      have hdec : decide (alertRepeatInterval ≤ now - t) = false :=
        decide_eq_false (not_le.mpr hlt)
      simp [checkAliasTick, hb, hamt, hs, ht, hdec]

/-- C1 witness: a first crossing at balance text `₹72,500.00` alerts on
the 70,000 rung and stamps `lastAlert`. -/
theorem C1_monitor_tick_witness :
    (checkAliasTick ⟨none, none⟩ 1000 true (some "₹72,500.00") [true]).emitted
        = some 70000 ∧
    (checkAliasTick ⟨none, none⟩ 1000 true (some "₹72,500.00") [true]).state.lastAlert
        = some 1000 := by
  have h := C1_monitor_tick ⟨none, none⟩ 1000 "₹72,500.00" (mkRat 72500 1) [true]
      (by decide)
  have h2 := (h.2 70000 (by decide)).2.1 (Or.inl rfl)
  rw [h2]
  exact ⟨rfl, rfl⟩

/-! ### C2: statement date windows -/

/-- C2 counterexample: the claim puts the cutover at 5 a.m. for every
adapter, so at 05:00 the requested `from` date would be today; IOB (and
KGB) still request yesterday at hour 5. -/
theorem C2_counterexample :
    iobDateWindow 0 5 = ⟨-1, 0⟩ ∧ iobDateWindow 0 5 ≠ ⟨0, 0⟩ ∧
      kgbDateWindow 0 5 = ⟨-1, 0⟩ := by decide

/-- C2 amended: IDBI, IDFC and Canara use the 5 a.m. cutover; IOB and
KGB use a 6 a.m. cutover (and the KGB override bypasses the rule);
boundary behaviour at 04:59/05:00 resp. 05:59/06:00 as stated. -/
theorem C2_amended_date_windows :
    (∀ day : ℤ, ∀ hour : ℕ, hour < 5 →
        idbiDateWindow day hour = ⟨day - 1, day⟩ ∧
        idfcDateWindow day hour = ⟨day - 1, day⟩ ∧
        canaraDateWindow day hour = ⟨day - 1, day⟩) ∧
    (∀ day : ℤ, ∀ hour : ℕ, 5 ≤ hour →
        idbiDateWindow day hour = ⟨day, day⟩ ∧
        idfcDateWindow day hour = ⟨day, day⟩ ∧
        canaraDateWindow day hour = ⟨day, day⟩) ∧
    (∀ day : ℤ, ∀ hour : ℕ, hour < 6 →
        iobDateWindow day hour = ⟨day - 1, day⟩ ∧
        kgbDateWindow day hour = ⟨day - 1, day⟩) ∧
    (∀ day : ℤ, ∀ hour : ℕ, 6 ≤ hour →
        iobDateWindow day hour = ⟨day, day⟩ ∧
        kgbDateWindow day hour = ⟨day, day⟩) ∧
    (∀ f t day : ℤ, ∀ hour : ℕ,
        kgbDateWindowMaybeCustom (some (f, t)) day hour = ⟨f, t⟩) ∧
    idbiDateWindow 0 4 = ⟨-1, 0⟩ ∧ idbiDateWindow 0 5 = ⟨0, 0⟩ ∧
    iobDateWindow 0 5 = ⟨-1, 0⟩ ∧ iobDateWindow 0 6 = ⟨0, 0⟩ := by
  refine ⟨?_, ?_, ?_, ?_, ?_, by decide, by decide, by decide, by decide⟩ <;>
    intros <;>
    simp_all [idbiDateWindow, idfcDateWindow, canaraDateWindow, iobDateWindow,
      kgbDateWindow, kgbDateWindowMaybeCustom]

/-- C2 witness: the amended rule evaluated at 04:00 for IDBI and at
07:00 for IOB. -/
theorem C2_amended_date_windows_witness :
    (4 : ℕ) < 5 ∧ idbiDateWindow 10 4 = ⟨10 - 1, 10⟩ ∧
      (6 : ℕ) ≤ 7 ∧ iobDateWindow 10 7 = ⟨10, 10⟩ := by
  refine ⟨by decide, (C2_amended_date_windows.1 10 4 (by decide)).1, by decide,
    (C2_amended_date_windows.2.2.2.1 10 7 (by decide)).1⟩

/-! ### C3: send failures and lastAlert -/

/-- C3 counterexample: both configured groups' sends fail, yet the tick
advances `lastAlert` to `now` (and counts two failures); the next tick
60 s later is therefore suppressed instead of retrying the alert. -/
theorem C3_counterexample :
    (checkAliasTick ⟨none, none⟩ 1000 true (some "₹72,500.00")
        [false, false]).state.lastAlert = some 1000 ∧
    (checkAliasTick ⟨none, none⟩ 1000 true (some "₹72,500.00")
        [false, false]).groupSendFailures = 2 ∧
    (checkAliasTick
        (checkAliasTick ⟨none, none⟩ 1000 true (some "₹72,500.00") [false, false]).state
        1060 true (some "₹72,500.00") [true, true]).emitted = none := by decide

/-- C3 amended: per-group send failures are caught and logged inside
`_send_alert`, so the tick's state transition and its emission are
independent of the transport results; in particular `lastAlert` is
advanced even when every send fails, suppressing the alert for
`repeatInterval` rather than retrying on the next tick. -/
theorem C3_amended_send_failures_ignored (st : AliasAlerts) (now : ℤ)
    (alive : Bool) (lb : Option String) (sendOk sendOk' : List Bool) :
    (checkAliasTick st now alive lb sendOk).state =
        (checkAliasTick st now alive lb sendOk').state ∧
    (checkAliasTick st now alive lb sendOk).emitted =
        (checkAliasTick st now alive lb sendOk').emitted := by
  refine ⟨?_, ?_⟩ <;>
  · unfold checkAliasTick
    repeat' split <;> try rfl

/-! ### C6: reset semantics -/

/-- C6: at the failing input, the `/reset_alerts all` branch clears only
`triggered_thresholds` and leaves the alias's `last_alert_time` entry,
so a crossing 200 s later emits nothing; the per-alias reset and the
below-ladder auto-clear do clear both fields. -/
theorem C6_reset_all_divergence :
    resetAlertsAllCmd ⟨[("acme", {70000})], [("acme", 500)]⟩ = ⟨[], [("acme", 500)]⟩ ∧
    (resetAlertsAllCmd ⟨[("acme", {70000})], [("acme", 500)]⟩).lastAlert.find?
        (fun p => p.1 == "acme") = some ("acme", 500) ∧
    resetAlertsForAlias ⟨[("acme", {70000})], [("acme", 500)]⟩ "acme" = ⟨[], []⟩ ∧
    resetAlertsAliasCmd ⟨[("acme", {70000})], [("acme", 500)]⟩ "acme" = ⟨[], []⟩ ∧
    (checkAliasTick ⟨some {70000}, some 500⟩ 900 true (some "₹45,000.00") []).state
        = ⟨none, none⟩ ∧
    (checkAliasTick ⟨none, some 500⟩ 700 true (some "₹72,500.00") []).emitted = none := by
  decide

/-! ### C5: upload retry loops -/

/-- C5 counterexample: with an always-failing sink, TMB makes exactly
one upload attempt and raises, and IOB never pauses between attempts;
the claim requires five attempts with 2 s pauses for every worker. -/
theorem C5_counterexample :
    tmbUploadOnce false = ⟨1, 0, 0, true⟩ ∧
    (tmbUploadOnce false).attempts ≠ 5 ∧
    (iobUploadLoop (fun _ => false)).sleeps2s = 0 := by decide

/-! ### C4: the shared retry wrapper -/

/-- The wrapper makes at most `fuel` calls. -/
theorem runWithRetriesGo_calls_le {ε : Type} (label : String)
    (outcome : ℕ → Option ε) (stopB stopA : ℕ → Bool) :
    ∀ fuel attempt,
      (runWithRetriesGo label outcome stopB stopA attempt fuel).calls ≤ fuel := by
  intro fuel
  induction fuel with
  | zero =>
    intro attempt
    simp [runWithRetriesGo]
  | succ n ih =>
    intro attempt
    simp only [runWithRetriesGo]
    by_cases hB : stopB attempt
    · simp [hB]
    · rw [if_neg hB]
      cases hO : outcome attempt with
      | none => simp
      | some e =>
        by_cases hF : (decide (n = 0) || stopA attempt) = true
        · simp [hF]
        · simp only [hF, Bool.false_eq_true, if_false]
          have h := ih (attempt + 1)
          show (runWithRetriesGo label outcome stopB stopA (attempt + 1) n).calls + 1 ≤ n + 1
          omega

/-- One screenshot set is taken per ERROR event. -/
theorem runWithRetriesGo_screenshots {ε : Type} (label : String)
    (outcome : ℕ → Option ε) (stopB stopA : ℕ → Bool) :
    ∀ fuel attempt,
      (runWithRetriesGo label outcome stopB stopA attempt fuel).screenshots =
        (runWithRetriesGo label outcome stopB stopA attempt fuel).errors.length := by
  intro fuel
  induction fuel with
  | zero =>
    intro attempt
    simp [runWithRetriesGo]
  | succ n ih =>
    intro attempt
    simp only [runWithRetriesGo]
    by_cases hB : stopB attempt
    · simp [hB]
    · rw [if_neg hB]
      cases hO : outcome attempt with
      | none => simp
      | some e =>
        by_cases hF : (decide (n = 0) || stopA attempt) = true
        · simp [hF]
        · simp only [hF, Bool.false_eq_true, if_false]
          have h := ih (attempt + 1)
          show (runWithRetriesGo label outcome stopB stopA (attempt + 1) n).screenshots + 1 =
            ((label, e) :: (runWithRetriesGo label outcome stopB stopA (attempt + 1) n).errors).length
          simp [h]

/-- Every emitted ERROR event carries the operation label. -/
theorem runWithRetriesGo_labels {ε : Type} (label : String)
    (outcome : ℕ → Option ε) (stopB stopA : ℕ → Bool) :
    ∀ fuel attempt,
      ∀ p ∈ (runWithRetriesGo label outcome stopB stopA attempt fuel).errors,
        p.1 = label := by
  intro fuel
  induction fuel with
  | zero =>
    intro attempt
    simp [runWithRetriesGo]
  | succ n ih =>
    intro attempt
    simp only [runWithRetriesGo]
    by_cases hB : stopB attempt
    · simp [hB]
    · rw [if_neg hB]
      cases hO : outcome attempt with
      | none => simp
      | some e =>
        by_cases hF : (decide (n = 0) || stopA attempt) = true
        · simp [hF]
        · simp only [hF, Bool.false_eq_true, if_false]
          intro p hp
          have hp' : p ∈ (label, e) ::
              (runWithRetriesGo label outcome stopB stopA (attempt + 1) n).errors := hp
          rcases List.mem_cons.mp hp' with h | h
          · rw [h]
          · exact ih (attempt + 1) p h

/-- Count bookkeeping per final outcome: a success is one call past the
failed calls, each failure before it slept once; a re-raise counts every
call as a failure and slept between consecutive attempts only; a
condition exit slept after every failed call; a re-raise propagates the
exception of the final call. -/
theorem runWithRetriesGo_cases {ε : Type} (label : String)
    (outcome : ℕ → Option ε) (stopB stopA : ℕ → Bool) :
    ∀ fuel attempt,
      ((runWithRetriesGo label outcome stopB stopA attempt fuel).result =
          RetryOutcome.success →
        (runWithRetriesGo label outcome stopB stopA attempt fuel).errors.length =
            (runWithRetriesGo label outcome stopB stopA attempt fuel).calls - 1 ∧
        (runWithRetriesGo label outcome stopB stopA attempt fuel).sleeps =
            (runWithRetriesGo label outcome stopB stopA attempt fuel).calls - 1 ∧
        1 ≤ (runWithRetriesGo label outcome stopB stopA attempt fuel).calls) ∧
      (∀ e, (runWithRetriesGo label outcome stopB stopA attempt fuel).result =
          RetryOutcome.raised e →
        (runWithRetriesGo label outcome stopB stopA attempt fuel).errors.length =
            (runWithRetriesGo label outcome stopB stopA attempt fuel).calls ∧
        (runWithRetriesGo label outcome stopB stopA attempt fuel).sleeps =
            (runWithRetriesGo label outcome stopB stopA attempt fuel).calls - 1 ∧
        1 ≤ (runWithRetriesGo label outcome stopB stopA attempt fuel).calls ∧
        outcome (attempt +
            (runWithRetriesGo label outcome stopB stopA attempt fuel).calls - 1) = some e) ∧
      ((runWithRetriesGo label outcome stopB stopA attempt fuel).result =
          RetryOutcome.noAttempt →
        (runWithRetriesGo label outcome stopB stopA attempt fuel).errors.length =
            (runWithRetriesGo label outcome stopB stopA attempt fuel).calls ∧
        (runWithRetriesGo label outcome stopB stopA attempt fuel).sleeps =
            (runWithRetriesGo label outcome stopB stopA attempt fuel).calls) := by
  intro fuel
  induction fuel with
  | zero =>
    intro attempt
    refine ⟨?_, ?_, ?_⟩ <;> simp [runWithRetriesGo]
  | succ n ih =>
    intro attempt
    simp only [runWithRetriesGo]
    by_cases hB : stopB attempt
    · refine ⟨?_, ?_, ?_⟩ <;> simp [hB]
    · rw [if_neg hB]
      cases hO : outcome attempt with
      | none => refine ⟨?_, ?_, ?_⟩ <;> simp
      | some e =>
        by_cases hF : (decide (n = 0) || stopA attempt) = true
        · refine ⟨?_, ?_, ?_⟩ <;> simp [hF]
          exact hO
        · simp only [hF, Bool.false_eq_true, if_false]
          have h := ih (attempt + 1)
          refine ⟨?_, ?_, ?_⟩
          · intro hres
            have hres' : (runWithRetriesGo label outcome stopB stopA (attempt + 1) n).result =
                RetryOutcome.success := hres
            have hc := h.1 hres'
            show ((label, e) :: (runWithRetriesGo label outcome stopB stopA (attempt + 1) n).errors).length =
                (runWithRetriesGo label outcome stopB stopA (attempt + 1) n).calls + 1 - 1 ∧
              (runWithRetriesGo label outcome stopB stopA (attempt + 1) n).sleeps + 1 =
                (runWithRetriesGo label outcome stopB stopA (attempt + 1) n).calls + 1 - 1 ∧
              1 ≤ (runWithRetriesGo label outcome stopB stopA (attempt + 1) n).calls + 1
            simp only [List.length_cons]
            omega
          · intro e' hres
            have hres' : (runWithRetriesGo label outcome stopB stopA (attempt + 1) n).result =
                RetryOutcome.raised e' := hres
            have hc := h.2.1 e' hres'
            refine ⟨?_, ?_, ?_, ?_⟩
            · show ((label, e) :: (runWithRetriesGo label outcome stopB stopA (attempt + 1) n).errors).length =
                (runWithRetriesGo label outcome stopB stopA (attempt + 1) n).calls + 1
              simp only [List.length_cons]
              omega
            · show (runWithRetriesGo label outcome stopB stopA (attempt + 1) n).sleeps + 1 =
                (runWithRetriesGo label outcome stopB stopA (attempt + 1) n).calls + 1 - 1
              omega
            · show 1 ≤ (runWithRetriesGo label outcome stopB stopA (attempt + 1) n).calls + 1
              omega
            · show outcome (attempt +
                  ((runWithRetriesGo label outcome stopB stopA (attempt + 1) n).calls + 1) - 1) = some e'
              have hidx : attempt +
                  ((runWithRetriesGo label outcome stopB stopA (attempt + 1) n).calls + 1) - 1 =
                  attempt + 1 + (runWithRetriesGo label outcome stopB stopA (attempt + 1) n).calls - 1 := by
                omega
              rw [hidx]
              exact hc.2.2.2
          · intro hres
            have hres' : (runWithRetriesGo label outcome stopB stopA (attempt + 1) n).result =
                RetryOutcome.noAttempt := hres
            have hc := h.2.2 hres'
            show ((label, e) :: (runWithRetriesGo label outcome stopB stopA (attempt + 1) n).errors).length =
                (runWithRetriesGo label outcome stopB stopA (attempt + 1) n).calls + 1 ∧
              (runWithRetriesGo label outcome stopB stopA (attempt + 1) n).sleeps + 1 =
                (runWithRetriesGo label outcome stopB stopA (attempt + 1) n).calls + 1
            simp only [List.length_cons]
            omega

/-- Once the stop signal is set at the while-condition check `k`, no
call with index ≥ k happens. -/
theorem runWithRetriesGo_stopB {ε : Type} (label : String)
    (outcome : ℕ → Option ε) (stopB stopA : ℕ → Bool) :
    ∀ fuel attempt k, attempt ≤ k → stopB k = true →
      (runWithRetriesGo label outcome stopB stopA attempt fuel).calls ≤ k - attempt := by
  intro fuel
  induction fuel with
  | zero =>
    intro attempt k _ _
    simp [runWithRetriesGo]
  | succ n ih =>
    intro attempt k hak hk
    simp only [runWithRetriesGo]
    by_cases hB : stopB attempt
    · simp [hB]
    · rw [if_neg hB]
      have hne : attempt ≠ k := by
        intro heq
        rw [heq] at hB
        exact hB hk
      have hlt : attempt < k := lt_of_le_of_ne hak hne
      cases hO : outcome attempt with
      | none =>
        show (1 : ℕ) ≤ k - attempt
        omega
      | some e =>
        by_cases hF : (decide (n = 0) || stopA attempt) = true
        · simp only [hF, if_true]
          show (1 : ℕ) ≤ k - attempt
          omega
        · simp only [hF, Bool.false_eq_true, if_false]
          have h := ih (attempt + 1) k hlt hk
          show (runWithRetriesGo label outcome stopB stopA (attempt + 1) n).calls + 1 ≤ k - attempt
          omega

/-- Once the stop signal is set at the in-handler check after attempt
`k`, at most `k + 1` calls happen in total. -/
theorem runWithRetriesGo_stopA {ε : Type} (label : String)
    (outcome : ℕ → Option ε) (stopB stopA : ℕ → Bool) :
    ∀ fuel attempt k, attempt ≤ k → stopA k = true →
      (runWithRetriesGo label outcome stopB stopA attempt fuel).calls ≤ k + 1 - attempt := by
  intro fuel
  induction fuel with
  | zero =>
    intro attempt k _ _
    simp [runWithRetriesGo]
  | succ n ih =>
    intro attempt k hak hk
    simp only [runWithRetriesGo]
    by_cases hB : stopB attempt
    · simp [hB]
    · rw [if_neg hB]
      cases hO : outcome attempt with
      | none =>
        show (1 : ℕ) ≤ k + 1 - attempt
        omega
      | some e =>
        by_cases hF : (decide (n = 0) || stopA attempt) = true
        · simp only [hF, if_true]
          show (1 : ℕ) ≤ k + 1 - attempt
          omega
        · simp only [hF, Bool.false_eq_true, if_false]
          have hA : stopA attempt = false := by
            cases hsa : stopA attempt
            · rfl
            · exact absurd (by simp [hsa]) hF
          have hne : attempt ≠ k := by
            intro heq
            rw [heq] at hA
            rw [hA] at hk
            cases hk
          have hlt : attempt < k := lt_of_le_of_ne hak hne
          have h := ih (attempt + 1) k hlt hk
          show (runWithRetriesGo label outcome stopB stopA (attempt + 1) n).calls + 1 ≤ k + 1 - attempt
          omega

/-- C4: the shared retry wrapper with its default budget of
`max_retries = 3` invokes the wrapped operation at most 3 times; every
failure emits one structured ERROR event naming the operation and one
full-tabs screenshot set, and each failure followed by another attempt
is followed by one 5 s sleep; if the final attempt fails the exception
of the last call is re-raised; and once the stop signal is set no
further attempt is made. -/
theorem C4_retry_wrapper {ε : Type} (label : String) (outcome : ℕ → Option ε)
    (stopB stopA : ℕ → Bool) :
    ((runWithRetries label outcome stopB stopA 3).calls ≤ 3) ∧
    ((runWithRetries label outcome stopB stopA 3).screenshots =
        (runWithRetries label outcome stopB stopA 3).errors.length) ∧
    (∀ p ∈ (runWithRetries label outcome stopB stopA 3).errors, p.1 = label) ∧
    ((runWithRetries label outcome stopB stopA 3).result = RetryOutcome.success →
        (runWithRetries label outcome stopB stopA 3).errors.length =
            (runWithRetries label outcome stopB stopA 3).calls - 1 ∧
        (runWithRetries label outcome stopB stopA 3).sleeps =
            (runWithRetries label outcome stopB stopA 3).calls - 1 ∧
        1 ≤ (runWithRetries label outcome stopB stopA 3).calls) ∧
    (∀ e, (runWithRetries label outcome stopB stopA 3).result = RetryOutcome.raised e →
        (runWithRetries label outcome stopB stopA 3).errors.length =
            (runWithRetries label outcome stopB stopA 3).calls ∧
        (runWithRetries label outcome stopB stopA 3).sleeps =
            (runWithRetries label outcome stopB stopA 3).calls - 1 ∧
        outcome ((runWithRetries label outcome stopB stopA 3).calls - 1) = some e) ∧
    ((runWithRetries label outcome stopB stopA 3).result = RetryOutcome.noAttempt →
        (runWithRetries label outcome stopB stopA 3).sleeps =
            (runWithRetries label outcome stopB stopA 3).calls) ∧
    (∀ k, stopB k = true → (runWithRetries label outcome stopB stopA 3).calls ≤ k) ∧
    (∀ k, stopA k = true → (runWithRetries label outcome stopB stopA 3).calls ≤ k + 1) := by
  have hcases := runWithRetriesGo_cases label outcome stopB stopA 3 0
  refine ⟨runWithRetriesGo_calls_le label outcome stopB stopA 3 0,
    runWithRetriesGo_screenshots label outcome stopB stopA 3 0,
    runWithRetriesGo_labels label outcome stopB stopA 3 0,
    hcases.1, ?_, fun h => (hcases.2.2 h).2, ?_, ?_⟩
  · intro e he
    have h := hcases.2.1 e he
    refine ⟨h.1, h.2.1, ?_⟩
    have := h.2.2.2
    simpa using this
  · intro k hk
    have := runWithRetriesGo_stopB label outcome stopB stopA 3 0 k (Nat.zero_le k) hk
    simpa using this
  · intro k hk
    have := runWithRetriesGo_stopA label outcome stopB stopA 3 0 k (Nat.zero_le k) hk
    simpa using this

/-- C4 witness: an operation that always raises 7 is attempted exactly
three times and re-raises 7. -/
theorem C4_retry_wrapper_witness :
    (runWithRetries "Login" (fun _ => (some 7 : Option ℕ)) (fun _ => false)
        (fun _ => false) 3).calls ≤ 3 ∧
    (runWithRetries "Login" (fun _ => (some 7 : Option ℕ)) (fun _ => false)
        (fun _ => false) 3).errors.length =
      (runWithRetries "Login" (fun _ => (some 7 : Option ℕ)) (fun _ => false)
        (fun _ => false) 3).calls := by
  have h := C4_retry_wrapper "Login" (fun _ => (some 7 : Option ℕ)) (fun _ => false)
      (fun _ => false)
  exact ⟨h.1, (h.2.2.2.2.1 7 (by decide)).1⟩

/-! ### C5: upload retry loops -/

/-- The shared loop makes at most `fuel` attempts. -/
theorem uploadRetryLoopGo_attempts_le (uploadOk : ℕ → Bool) :
    ∀ fuel attempt, (uploadRetryLoopGo uploadOk attempt fuel).attempts ≤ fuel := by
  intro fuel
  induction fuel with
  | zero =>
    intro attempt
    simp [uploadRetryLoopGo]
  | succ n ih =>
    intro attempt
    simp only [uploadRetryLoopGo]
    by_cases hS : uploadOk attempt
    · simp [hS]
    · rw [if_neg hS]
      by_cases hF : n = 0
      · simp [hF]
      · rw [if_neg hF]
        have h := ih (attempt + 1)
        show (uploadRetryLoopGo uploadOk (attempt + 1) n).attempts + 1 ≤ n + 1
        omega

/-- With an always-failing sink the shared loop runs all its attempts,
emits one ERROR per attempt, sleeps between consecutive attempts, and
re-raises. -/
theorem uploadRetryLoopGo_allFail (uploadOk : ℕ → Bool)
    (hall : ∀ k, uploadOk k = false) :
    ∀ fuel attempt, 1 ≤ fuel →
      uploadRetryLoopGo uploadOk attempt fuel = ⟨fuel, fuel, fuel - 1, true⟩ := by
  intro fuel
  induction fuel with
  | zero =>
    intro attempt h
    cases h
  | succ n ih =>
    intro attempt _
    simp only [uploadRetryLoopGo, hall attempt, Bool.false_eq_true, if_false]
    by_cases hF : n = 0
    · simp [hF]
    · rw [if_neg hF]
      rw [ih attempt.succ (by omega)]
      have hn : n - 1 + 1 = n := by omega
      simp [hn]

/-- A re-raise out of the shared loop happens only on its final
attempt. -/
theorem uploadRetryLoopGo_raised (uploadOk : ℕ → Bool) :
    ∀ fuel attempt, (uploadRetryLoopGo uploadOk attempt fuel).raised = true →
      (uploadRetryLoopGo uploadOk attempt fuel).attempts = fuel ∧
        (uploadRetryLoopGo uploadOk attempt fuel).sleeps2s = fuel - 1 := by
  intro fuel
  induction fuel with
  | zero =>
    intro attempt h
    simp [uploadRetryLoopGo] at h
  | succ n ih =>
    intro attempt
    simp only [uploadRetryLoopGo]
    by_cases hS : uploadOk attempt
    · simp [hS]
    · rw [if_neg hS]
      by_cases hF : n = 0
      · simp [hF]
      · rw [if_neg hF]
        intro h
        have h' : (uploadRetryLoopGo uploadOk (attempt + 1) n).raised = true := h
        have hc := ih (attempt + 1) h'
        refine ⟨?_, ?_⟩
        · show (uploadRetryLoopGo uploadOk (attempt + 1) n).attempts + 1 = n + 1
          omega
        · show (uploadRetryLoopGo uploadOk (attempt + 1) n).sleeps2s + 1 = n + 1 - 1
          omega

/-- The IOB loop makes at most `fuel` attempts. -/
theorem iobUploadLoopGo_attempts_le (uploadOk : ℕ → Bool) :
    ∀ fuel attempt, (iobUploadLoopGo uploadOk attempt fuel).attempts ≤ fuel := by
  intro fuel
  induction fuel with
  | zero =>
    intro attempt
    simp [iobUploadLoopGo]
  | succ n ih =>
    intro attempt
    simp only [iobUploadLoopGo]
    by_cases hS : uploadOk attempt
    · simp [hS]
    · rw [if_neg hS]
      by_cases hF : n = 0
      · simp [hF]
      · rw [if_neg hF]
        have h := ih (attempt + 1)
        show (iobUploadLoopGo uploadOk (attempt + 1) n).attempts + 1 ≤ n + 1
        omega

/-- The IOB loop never pauses between attempts. -/
theorem iobUploadLoopGo_sleeps (uploadOk : ℕ → Bool) :
    ∀ fuel attempt, (iobUploadLoopGo uploadOk attempt fuel).sleeps2s = 0 := by
  intro fuel
  induction fuel with
  | zero =>
    intro attempt
    simp [iobUploadLoopGo]
  | succ n ih =>
    intro attempt
    simp only [iobUploadLoopGo]
    by_cases hS : uploadOk attempt
    · simp [hS]
    · rw [if_neg hS]
      by_cases hF : n = 0
      · simp [hF]
      · rw [if_neg hF]
        show (iobUploadLoopGo uploadOk (attempt + 1) n).sleeps2s = 0
        exact ih (attempt + 1)

/-- With an always-failing sink the IOB loop runs its five attempts
without pausing and re-raises on the fifth. -/
theorem iobUploadLoopGo_allFail (uploadOk : ℕ → Bool)
    (hall : ∀ k, uploadOk k = false) :
    ∀ fuel attempt, 1 ≤ fuel →
      iobUploadLoopGo uploadOk attempt fuel = ⟨fuel, fuel, 0, true⟩ := by
  intro fuel
  induction fuel with
  | zero =>
    intro attempt h
    cases h
  | succ n ih =>
    intro attempt _
    simp only [iobUploadLoopGo, hall attempt, Bool.false_eq_true, if_false]
    by_cases hF : n = 0
    · simp [hF]
    · rw [if_neg hF]
      rw [ih attempt.succ (by omega)]

/-- A re-raise out of the IOB loop happens only on its final attempt. -/
theorem iobUploadLoopGo_raised (uploadOk : ℕ → Bool) :
    ∀ fuel attempt, (iobUploadLoopGo uploadOk attempt fuel).raised = true →
      (iobUploadLoopGo uploadOk attempt fuel).attempts = fuel := by
  intro fuel
  induction fuel with
  | zero =>
    intro attempt h
    simp [iobUploadLoopGo] at h
  | succ n ih =>
    intro attempt
    simp only [iobUploadLoopGo]
    by_cases hS : uploadOk attempt
    · simp [hS]
    · rw [if_neg hS]
      by_cases hF : n = 0
      · simp [hF]
      · rw [if_neg hF]
        intro h
        have h' : (iobUploadLoopGo uploadOk (attempt + 1) n).raised = true := h
        show (iobUploadLoopGo uploadOk (attempt + 1) n).attempts + 1 = n + 1
        have := ih (attempt + 1) h'
        omega

/-- C5 amended: KGB, IDBI, IDFC and Canara upload with up to 5 attempts
and a 2 s pause between consecutive attempts, raising only after the
fifth failure; IOB uses up to 5 attempts with no pause; TMB makes a
single attempt whose failure propagates to the statement-cycle retry
wrapper. -/
theorem C5_upload_retries (uploadOk : ℕ → Bool) :
    (uploadRetryLoop uploadOk).attempts ≤ 5 ∧
    (iobUploadLoop uploadOk).attempts ≤ 5 ∧
    ((∀ k, uploadOk k = false) →
        uploadRetryLoop uploadOk = ⟨5, 5, 4, true⟩ ∧
        iobUploadLoop uploadOk = ⟨5, 5, 0, true⟩) ∧
    ((uploadRetryLoop uploadOk).raised = true →
        (uploadRetryLoop uploadOk).attempts = 5 ∧
        (uploadRetryLoop uploadOk).sleeps2s = 4) ∧
    ((iobUploadLoop uploadOk).raised = true →
        (iobUploadLoop uploadOk).attempts = 5) ∧
    (iobUploadLoop uploadOk).sleeps2s = 0 ∧
    (∀ ok1 : Bool, tmbUploadOnce ok1 = ⟨1, 0, 0, !ok1⟩) := by
  refine ⟨uploadRetryLoopGo_attempts_le uploadOk 5 1,
    iobUploadLoopGo_attempts_le uploadOk 5 1,
    ?_, ?_, iobUploadLoopGo_raised uploadOk 5 1, iobUploadLoopGo_sleeps uploadOk 5 1, ?_⟩
  · intro hall
    exact ⟨uploadRetryLoopGo_allFail uploadOk hall 5 1 (by omega),
      iobUploadLoopGo_allFail uploadOk hall 5 1 (by omega)⟩
  · intro h
    exact uploadRetryLoopGo_raised uploadOk 5 1 h
  · intro ok1
    cases ok1 <;> rfl

/-- C5 witness: the amended statement evaluated at an always-failing
sink. -/
theorem C5_upload_retries_witness :
    uploadRetryLoop (fun _ => false) = ⟨5, 5, 4, true⟩ ∧
    iobUploadLoop (fun _ => false) = ⟨5, 5, 0, true⟩ := by
  exact (C5_upload_retries (fun _ => false)).2.2.1 (fun _ => rfl)

/-! ### C7: the IOB outer loop -/

/-- During every steady loop the failure counter is zero (it was reset
right after the successful login), so it is zero whenever a statement
cycle succeeds. -/
theorem iobRunGo_counters_zero {ε : Type} (iters : ℕ → OuterOutcome ε) :
    ∀ fuel rc idx,
      ∀ p ∈ (iobRunGo iters rc idx fuel).steadyCounters, p.1 = 0 := by
  intro fuel
  induction fuel with
  | zero =>
    intro rc idx p hp
    simp [iobRunGo] at hp
  | succ n ih =>
    intro rc idx p hp
    simp only [iobRunGo] at hp
    cases hit : iters idx with
    | stopBeforeLogin =>
      rw [hit] at hp
      simp at hp
    | loginFailed e =>
      rw [hit] at hp
      by_cases hrc : 5 < rc + 1
      · simp [hrc] at hp
      · simp only [if_neg hrc] at hp
        exact ih (rc + 1) (idx + 1) p hp
    | steady x =>
      cases x with
      | stopSignal k =>
        rw [hit] at hp
        simp at hp
        rw [hp]
      | failed k e =>
        rw [hit] at hp
        simp only [Nat.zero_add] at hp
        have h51 : ¬ (5 < 1) := by omega
        simp only [if_neg h51] at hp
        rcases List.mem_cons.mp hp with h | h
        · rw [h]
        · exact ih 1 (idx + 1) p h

/-- The only event kind a halting run can emit at its stop is ERROR
(the `Too many failures ... Stopping` message goes through
`self.error`). -/
theorem iobRunGo_haltEvent_error {ε : Type} (iters : ℕ → OuterOutcome ε) :
    ∀ fuel rc idx k,
      (iobRunGo iters rc idx fuel).haltEvent = some k → k = EventKind.error := by
  intro fuel
  induction fuel with
  | zero =>
    intro rc idx k h
    simp [iobRunGo] at h
  | succ n ih =>
    intro rc idx k h
    simp only [iobRunGo] at h
    cases hit : iters idx with
    | stopBeforeLogin =>
      rw [hit] at h
      simp at h
    | loginFailed e =>
      rw [hit] at h
      by_cases hrc : 5 < rc + 1
      · simp [hrc] at h
        exact h.symm
      · simp only [if_neg hrc] at h
        exact ih (rc + 1) (idx + 1) k h
    | steady x =>
      cases x with
      | stopSignal kk =>
        rw [hit] at h
        simp at h
      | failed kk e =>
        rw [hit] at h
        simp only [Nat.zero_add] at h
        have h51 : ¬ (5 < 1) := by omega
        simp only [if_neg h51] at h
        exact ih 1 (idx + 1) k h

/-- Once the run has halted, giving it more fuel changes nothing: no
further outer iteration runs. -/
theorem iobRunGo_halt_stable {ε : Type} (iters : ℕ → OuterOutcome ε) :
    ∀ fuel rc idx, (iobRunGo iters rc idx fuel).halted = true →
      ∀ m, iobRunGo iters rc idx (fuel + m) = iobRunGo iters rc idx fuel := by
  intro fuel
  induction fuel with
  | zero =>
    intro rc idx h m
    simp [iobRunGo] at h
  | succ n ih =>
    intro rc idx h m
    have hrw : n + 1 + m = (n + m) + 1 := by omega
    rw [hrw]
    simp only [iobRunGo] at h ⊢
    cases hit : iters idx with
    | stopBeforeLogin => rfl
    | loginFailed e =>
      rw [hit] at h
      by_cases hrc : 5 < rc + 1
      · simp [hrc]
      · simp only [if_neg hrc] at h ⊢
        rw [ih (rc + 1) (idx + 1) h m]
    | steady x =>
      cases x with
      | stopSignal k => rfl
      | failed k e =>
        rw [hit] at h
        simp only [Nat.zero_add] at h ⊢
        have h51 : ¬ (5 < 1) := by omega
        simp only [if_neg h51] at h ⊢
        rw [ih 1 (idx + 1) h m]

/-- C7 counterexample: a run whose login keeps failing halts after the
counter exceeds 5, and the event it emits at that stop is ERROR-level,
not STOP-level. -/
theorem C7_counterexample :
    (iobRun (fun _ => OuterOutcome.loginFailed ()) 10).halted = true ∧
    (iobRun (fun _ => OuterOutcome.loginFailed ()) 10).haltEvent
        = some EventKind.error ∧
    some EventKind.error ≠ some EventKind.stop := by decide

/-- C7 amended: in the IOB outer loop the counter is zero during every
steady loop (reset at successful login), hence zero whenever a
FetchStatement succeeds; when the counter exceeds 5 the run stops, the
event emitted at that stop is ERROR-level, and no further outer
iteration runs. -/
theorem C7_outer_loop {ε : Type} (iters : ℕ → OuterOutcome ε) (fuel : ℕ) :
    (∀ p ∈ (iobRun iters fuel).steadyCounters, p.1 = 0) ∧
    (∀ k, (iobRun iters fuel).haltEvent = some k → k = EventKind.error) ∧
    ((iobRun iters fuel).halted = true →
        ∀ m, iobRun iters (fuel + m) = iobRun iters fuel) := by
  exact ⟨iobRunGo_counters_zero iters fuel 0 0,
    fun k => iobRunGo_haltEvent_error iters fuel 0 0 k,
    fun h m => iobRunGo_halt_stable iters fuel 0 0 h m⟩

/-- C7 witness: the halted always-failing run is unchanged by five more
units of fuel. -/
theorem C7_outer_loop_witness :
    iobRun (fun _ => OuterOutcome.loginFailed ()) (10 + 5)
        = iobRun (fun _ => OuterOutcome.loginFailed ()) 10 := by
  exact (C7_outer_loop (fun _ => OuterOutcome.loginFailed ()) 10).2.2 (by decide) 5

/-! ### C8: StopWorker -/

/-- C8 counterexample: a registry entry whose worker thread is no longer
alive is answered with `is not running` and left in the registry, so
after `/stop acme` the registry still contains `acme`. -/
theorem C8_counterexample :
    (stopCmdOne [("acme", ⟨false, false⟩)] "acme" false).registry
        = [("acme", ⟨false, false⟩)] ∧
    ((stopCmdOne [("acme", ⟨false, false⟩)] "acme" false).registry.find?
        (fun p => p.1 == "acme")).isSome = true ∧
    (stopCmdOne [("acme", ⟨false, false⟩)] "acme" false).reply
        = StopReply.notRunning := by decide

/-- C8 amended: if the registry maps the alias to an alive worker,
`/stop` fires its stop signal, joins it with the 5 s deadline, and
removes exactly that alias from the registry even when stop/join raises;
if the alias is absent, or maps to a worker that is not alive, `/stop`
is not an error: it replies with an informational status and leaves the
whole registry (including a dead entry for the alias) unchanged. -/
theorem C8_stop_cmd (reg : List (String × WorkerHandle)) (a : String)
    (raises : Bool) :
    (reg.find? (fun p => p.1 == a) = none →
        stopCmdOne reg a raises = ⟨reg, StopReply.notRunning, false, false⟩) ∧
    (∀ nm w, reg.find? (fun p => p.1 == a) = some (nm, w) → w.alive = false →
        stopCmdOne reg a raises = ⟨reg, StopReply.notRunning, false, false⟩) ∧
    (∀ nm w, reg.find? (fun p => p.1 == a) = some (nm, w) → w.alive = true →
        (stopCmdOne reg a raises).firedStop = true ∧
        (stopCmdOne reg a raises).joined = true ∧
        (stopCmdOne reg a raises).registry = reg.filter (fun p => !(p.1 == a)) ∧
        (stopCmdOne reg a raises).registry.find? (fun p => p.1 == a) = none) := by
  refine ⟨?_, ?_, ?_⟩
  · intro hnone
    unfold stopCmdOne
    rw [hnone]
  · intro nm w hfind hdead
    unfold stopCmdOne
    rw [hfind]
    simp [hdead]
  · intro nm w hfind halive
    have hfdr : (reg.filter (fun p => !(p.1 == a))).find? (fun p => p.1 == a) = none := by
      rw [List.find?_eq_none]
      intro x hx
      have := (List.mem_filter.mp hx).2
      simp at this
      simp [this]
    unfold stopCmdOne
    rw [hfind]
    simp only [halive, Bool.not_true, Bool.false_eq_true, if_false]
    cases raises <;> exact ⟨rfl, rfl, rfl, hfdr⟩

/-- C8 witness: stopping an alive worker removes it and leaves the other
entry in place. -/
theorem C8_stop_cmd_witness :
    (stopCmdOne [("acme", ⟨true, false⟩), ("beta", ⟨true, false⟩)] "acme"
        false).firedStop = true ∧
    (stopCmdOne [("acme", ⟨true, false⟩), ("beta", ⟨true, false⟩)] "acme"
        false).registry =
      ([("acme", ⟨true, false⟩), ("beta", ⟨true, false⟩)] :
          List (String × WorkerHandle)).filter (fun p => !(p.1 == "acme")) := by
  have h := (C8_stop_cmd [("acme", ⟨true, false⟩), ("beta", ⟨true, false⟩)] "acme"
      false).2.2 "acme" ⟨true, false⟩ (by decide) rfl
  exact ⟨h.1, h.2.2.1⟩

/-! ### C9: the OTP/CAPTCHA broadcast -/

/-- A found standalone code consists of six digits. -/
theorem findSixDigitAux_shape (cs : List Char) :
    ∀ prev out, findSixDigitAux prev cs = some out →
      out.length = 6 ∧ out.all Char.isDigit = true := by
  induction cs with
  | nil =>
    intro prev out h
    simp [findSixDigitAux] at h
  | cons c rest ih =>
    intro prev out h
    simp only [findSixDigitAux] at h
    split at h
    next hcond =>
      cases h
      simp only [Bool.and_eq_true, beq_iff_eq] at hcond
      exact ⟨hcond.1.1.2, hcond.1.2⟩
    next =>
      exact ih (some c) out h

/-- C9: a plain-text message containing a standalone six-digit number is
broadcast as OTP (the code being those six digits) to every worker with
an OTP inbox — and, by the same assignment block, also into every
CAPTCHA inbox; otherwise a message whose space-free text is 4-8 ASCII
alphanumerics is broadcast uppercased as CAPTCHA to every worker with a
CAPTCHA inbox; any other text changes no worker; and a worker that is
not waiting consumes nothing from its inbox. -/
theorem C9_broadcast (text : String) (w : WorkerInboxes)
    (reg : List (String × WorkerInboxes)) :
    (∀ code, otpOrCaptchaDecision text = BroadcastKind.asOtp code →
        (code.data.length = 6 ∧ code.data.all Char.isDigit = true) ∧
        (w.hasOtpSlot = true →
            (applyBroadcast (BroadcastKind.asOtp code) w).otpSlot = some code) ∧
        (w.hasCaptchaSlot = true →
            (applyBroadcast (BroadcastKind.asOtp code) w).captchaSlot = some code)) ∧
    (∀ code, otpOrCaptchaDecision text = BroadcastKind.asCaptcha code →
        (code.data = ((pyStrip text.data).filter (fun c => !(c == ' '))).map
            Char.toUpper ∧
          4 ≤ code.data.length ∧ code.data.length ≤ 8) ∧
        (w.hasCaptchaSlot = true →
            (applyBroadcast (BroadcastKind.asCaptcha code) w).captchaSlot = some code) ∧
        (applyBroadcast (BroadcastKind.asCaptcha code) w).otpSlot = w.otpSlot) ∧
    (otpOrCaptchaDecision text = BroadcastKind.noBroadcast →
        broadcastToRegistry (otpOrCaptchaDecision text) reg = reg) ∧
    (∀ w2 : WorkerInboxes, otpPollStep false w2 = (w2, none)) := by
  refine ⟨?_, ?_, ?_, fun w2 => rfl⟩
  · intro code hdec
    unfold otpOrCaptchaDecision at hdec
    by_cases hemp : pyStrip text.data = []
    · simp [hemp] at hdec
    · rw [if_neg hemp] at hdec
      rcases hfind : findSixDigitAux none (pyStrip text.data) with _ | cs
      · rw [hfind] at hdec
        by_cases hcap : 4 ≤ ((pyStrip text.data).filter (fun c => !(c == ' '))).length ∧
            ((pyStrip text.data).filter (fun c => !(c == ' '))).length ≤ 8 ∧
            ((pyStrip text.data).filter (fun c => !(c == ' '))).all Char.isAlphanum
        · rw [if_pos hcap] at hdec
          cases hdec
        · rw [if_neg hcap] at hdec
          cases hdec
      · rw [hfind] at hdec
        cases hdec
        have hshape := findSixDigitAux_shape (pyStrip text.data) none cs hfind
        refine ⟨⟨hshape.1, hshape.2⟩, ?_, ?_⟩
        · intro hslot
          simp [applyBroadcast, hslot]
        · intro hslot
          simp [applyBroadcast, hslot]
  · intro code hdec
    unfold otpOrCaptchaDecision at hdec
    by_cases hemp : pyStrip text.data = []
    · simp [hemp] at hdec
    · rw [if_neg hemp] at hdec
      rcases hfind : findSixDigitAux none (pyStrip text.data) with _ | cs
      · rw [hfind] at hdec
        by_cases hcap : 4 ≤ ((pyStrip text.data).filter (fun c => !(c == ' '))).length ∧
            ((pyStrip text.data).filter (fun c => !(c == ' '))).length ≤ 8 ∧
            ((pyStrip text.data).filter (fun c => !(c == ' '))).all Char.isAlphanum
        · rw [if_pos hcap] at hdec
          cases hdec
          refine ⟨⟨rfl, ?_, ?_⟩, ?_, rfl⟩
          · show 4 ≤ (((pyStrip text.data).filter (fun c => !(c == ' '))).map
                Char.toUpper).length
            rw [List.length_map]
            exact hcap.1
          · show (((pyStrip text.data).filter (fun c => !(c == ' '))).map
                Char.toUpper).length ≤ 8
            rw [List.length_map]
            exact hcap.2.1
          · intro hslot
            simp [applyBroadcast, hslot]
        · rw [if_neg hcap] at hdec
          cases hdec
      · rw [hfind] at hdec
        cases hdec
  · intro hdec
    rw [hdec]
    unfold broadcastToRegistry applyBroadcast
    simp

/-- C9 witness: the text `123456` is taken as OTP and lands in both
inboxes of a worker that has them. -/
theorem C9_broadcast_witness :
    (applyBroadcast (BroadcastKind.asOtp "123456")
        ⟨true, true, none, none⟩).otpSlot = some "123456" ∧
    (applyBroadcast (BroadcastKind.asOtp "123456")
        ⟨true, true, none, none⟩).captchaSlot = some "123456" := by
  have h := (C9_broadcast "123456" ⟨true, true, none, none⟩ []).1 "123456" (by decide)
  exact ⟨h.2.1 rfl, h.2.2 rfl⟩

end AutobotV2
